import Mathlib

/-!
Verification development for the better-squads-ui core pipeline.

Shallow embedding of the core components described in the design document:
the TTL cache, the retrying remote reader, the account service
(src/lib/squad.ts), the cross-chain transaction preparer
(src/lib/cross-chain-tx.ts), the signer dispatcher
(src/lib/transaction-signer.ts) and the error classifier
(src/lib/error-handler.ts).

Modelling conventions:
- public keys, blockhashes and cache keys are `String` (their base58 or
  textual form in the TypeScript source);
- raw account data is `List Nat` (a byte buffer);
- fallible operations return `Except String` carrying the thrown error
  message;
- external collaborators (RPC node state, the @sqds/multisig decoders, the
  PDA derivation, the hardware and browser signing back-ends) are function
  parameters of the embedded operations, so theorems quantify over their
  behaviour.
-/

/-- Model of the JavaScript `String.prototype.includes`: `sub` occurs as a
contiguous substring of `s`. -/
def strIncludes (s sub : String) : Bool :=
  decide (sub.toList <:+: s.toList)

/-- Model of the JavaScript `String.prototype.toLowerCase` on the message
texts involved: character-wise lowercasing. -/
def strToLower (s : String) : String :=
  ⟨s.toList.map Char.toLower⟩

namespace ErrorHandler

/-- Model of the `ErrorPattern` interface from src/lib/error-handler.ts:
keywords, user-facing message, optional display duration. -/
structure ErrorPattern where
  keywords : List String
  message : String
  duration : Option Nat
deriving Repr, DecidableEq

/-- The RPC_ERROR_PATTERNS rule list from src/lib/error-handler.ts, in source
order. -/
def RPC_ERROR_PATTERNS : List ErrorPattern :=
  [ { keywords := ["RPC rate limit", "403", "429"],
      message := "RPC rate limit exceeded. Try using a custom RPC provider (configure in Chain Management).",
      duration := some 5000 },
    { keywords := ["Squads V3"],
      message := "This appears to be a Squads V3 multisig. This app only supports Squads V4.",
      duration := some 5000 },
    { keywords := ["not a multisig", "wrong network"],
      message := "This address is not a valid multisig. Check the address and ensure the correct network is selected (Mainnet/Devnet).",
      duration := some 6000 },
    { keywords := ["not owned by", "Invalid multisig"],
      message := "Invalid multisig account. Please verify the address is a Squads V4 multisig.",
      duration := some 5000 },
    { keywords := ["Account not found", "not found"],
      message := "Account not found. Please check the address and make sure you selected the correct network.",
      duration := some 5000 } ]

/-- Whether one pattern matches the lowercased error text: some keyword,
lowercased, occurs as a substring. -/
def patternMatches (lowerMessage : String) (p : ErrorPattern) : Bool :=
  p.keywords.any (fun keyword => strIncludes lowerMessage (strToLower keyword))

/-- The scanning loop of `matchErrorPattern`: return the first pattern in the
list that matches the lowercased message. -/
def matchLoop (lowerMessage : String) : List ErrorPattern → Option ErrorPattern
  | [] => none
  | p :: ps =>
      if patternMatches lowerMessage p then some p else matchLoop lowerMessage ps

/-- Model of `matchErrorPattern` from src/lib/error-handler.ts: lowercase the
raw failure text, scan the rule list in order, first match wins. Errors are
modelled by their message string. -/
def matchErrorPattern (errorMessage : String) (patterns : List ErrorPattern) :
    Option ErrorPattern :=
  matchLoop (strToLower errorMessage) patterns

/-- Model of `formatError` restricted to string-message failures: the message
itself. -/
def formatError (errorMessage : String) : String := errorMessage

/-- Model of `getErrorMessage` from src/lib/error-handler.ts: message and
duration of the first matching rule, falling back to the raw failure text with
a default duration of 5000ms. -/
def getErrorMessage (errorMessage : String)
    (patterns : List ErrorPattern := RPC_ERROR_PATTERNS) : String × Option Nat :=
  match matchErrorPattern errorMessage patterns with
  | some p => (p.message, p.duration)
  | none => (formatError errorMessage, some 5000)

end ErrorHandler

namespace Squad

/-- MAX_RETRIES constant from src/lib/squad.ts. -/
def MAX_RETRIES : Nat := 3

/-- RETRY_DELAY constant (milliseconds) from src/lib/squad.ts. -/
def RETRY_DELAY : Nat := 1000

/-- CACHE_TTL constant (milliseconds) from src/lib/squad.ts. -/
def CACHE_TTL : Nat := 30000

/-- The rate-limit check of `retryWithBackoff`: the error message contains
"403" or "429". -/
def isRateLimitMessage (msg : String) : Bool :=
  strIncludes msg "403" || strIncludes msg "429"

/-- The distinguished error thrown by `retryWithBackoff` after exhausting all
attempts on a rate-limit-shaped failure. -/
def rateLimitExceededMessage : String :=
  "RPC rate limit exceeded. Please try again later or configure a custom RPC endpoint with higher limits (e.g., Helius, QuickNode, Alchemy)."

/-- Observable outcome of one `retryWithBackoff` run: the returned value or
thrown error, the backoff delays slept (in order), and how many times the
wrapped operation was invoked. -/
structure RetryOutcome (α : Type) where
  result : Except String α
  delays : List Nat
  attemptsMade : Nat
deriving Repr

/-- The retry loop of `SquadService.retryWithBackoff`. The wrapped operation
is modelled as a function of the attempt number (attempts may observe
different remote states). `remaining` counts the loop iterations still
allowed (`MAX_RETRIES - attempt + 1`); `lastError` mirrors the `lastError`
variable of the source. -/
def retryLoop {α : Type} (op : Nat → Except String α) (operationName : String) :
    Nat → Nat → Option String → List Nat → RetryOutcome α
  | 0, attempt, lastError, delays =>
      { result := Except.error
          (lastError.getD (operationName ++ " failed after 3 attempts")),
        delays := delays.reverse,
        attemptsMade := attempt - 1 }
  | remaining + 1, attempt, _, delays =>
      match op attempt with
      | Except.ok v =>
          { result := Except.ok v, delays := delays.reverse,
            attemptsMade := attempt }
      | Except.error e =>
          if isRateLimitMessage e then
            if attempt < MAX_RETRIES then
              retryLoop op operationName remaining (attempt + 1) (some e)
                (RETRY_DELAY * 2 ^ (attempt - 1) :: delays)
            else
              { result := Except.error rateLimitExceededMessage,
                delays := delays.reverse, attemptsMade := attempt }
          else
            { result := Except.error e, delays := delays.reverse,
              attemptsMade := attempt }

/-- Model of `SquadService.retryWithBackoff` from src/lib/squad.ts: up to
MAX_RETRIES attempts, retrying only rate-limit-shaped failures with backoff
`RETRY_DELAY * 2 ^ (attempt - 1)`. -/
def retryWithBackoff {α : Type} (op : Nat → Except String α)
    (operationName : String) : RetryOutcome α :=
  retryLoop op operationName MAX_RETRIES 1 none []

end Squad

namespace TTLCache

/-- Modelled from the spec: the cache entry shape of the TTL cache. The cache
implementation file (src/lib/cache.ts) is not under src/ (only its unit tests
and its callers are), so the entry record is taken from the data-model
section: a value plus an absolute expiry timestamp. -/
structure CacheEntry (α : Type) where
  value : α
  expiresAt : Nat
deriving Repr, DecidableEq

/-- A cache state: an association list from string keys to entries. Later
bindings are shadowed by earlier ones; `cacheSet` keeps at most one binding
per key. -/
def CacheMap (α : Type) : Type := List (String × CacheEntry α)

/-- Raw lookup of the binding for a key, ignoring expiry. -/
def cacheLookup {α : Type} (c : CacheMap α) (key : String) :
    Option (CacheEntry α) :=
  (c.find? (fun kv => kv.1 == key)).map (fun kv => kv.2)

/-- Modelled from the spec: `cache.set(key, value, ttl)` stores the value with
`expiresAt = now + ttl`, replacing any previous binding for the key
(replace-on-write, never patch-in-place). `now` is the current clock reading
in milliseconds. -/
def cacheSet {α : Type} (c : CacheMap α) (key : String) (value : α) (ttl : Nat)
    (now : Nat) : CacheMap α :=
  (key, { value := value, expiresAt := now + ttl }) ::
    c.filter (fun kv => kv.1 != key)

/-- Modelled from the spec: `cache.get(key)` returns the stored value while it
is live, and treats an entry with `now >= expiresAt` as absent, removing it
lazily. Returns the read result together with the possibly-pruned cache
state. -/
def cacheGet {α : Type} (c : CacheMap α) (key : String) (now : Nat) :
    Option α × CacheMap α :=
  match cacheLookup c key with
  | none => (none, c)
  | some entry =>
      if entry.expiresAt ≤ now then
        (none, c.filter (fun kv => kv.1 != key))
      else
        (some entry.value, c)

/-- Modelled from the spec: `cache.has(key)` with the same expiry-and-lazy-
removal behaviour as `cacheGet`. -/
def cacheHas {α : Type} (c : CacheMap α) (key : String) (now : Nat) :
    Bool × CacheMap α :=
  match cacheLookup c key with
  | none => (false, c)
  | some entry =>
      if entry.expiresAt ≤ now then
        (false, c.filter (fun kv => kv.1 != key))
      else
        (true, c)

/-- Modelled from the spec: `cache.invalidate(key)` removes the binding for
one exact key. -/
def cacheInvalidate {α : Type} (c : CacheMap α) (key : String) : CacheMap α :=
  c.filter (fun kv => kv.1 != key)

/-- Modelled from the spec: `cache.invalidatePattern(sub)` removes every
binding whose key contains the given substring. -/
def cacheInvalidatePattern {α : Type} (c : CacheMap α) (sub : String) :
    CacheMap α :=
  c.filter (fun kv => !(strIncludes kv.1 sub))

end TTLCache

namespace Squad

open TTLCache

/-- Snapshot of one on-chain account as returned by `getAccountInfo`: the
owning program (base58 text) and the raw data bytes. -/
structure AccountInfo where
  owner : String
  data : List Nat
deriving Repr, DecidableEq

/-- The remote ledger state: what `getAccountInfo` returns at each address. -/
def AccountStore : Type := String → Option AccountInfo

/-- The System Program id, which `getMultisig` special-cases as the owner of
Squads V3 multisigs. -/
def systemProgramId : String := "11111111111111111111111111111111"

/-- Error message thrown by `getMultisig` when no account exists at the
address. -/
def accountNotFoundMessage : String :=
  "Account not found. Please verify the address and selected network."

/-- Error message thrown by `getMultisig` when the account owner is the System
Program (a Squads V3 multisig). -/
def squadsV3Message : String :=
  "This is a Squads V3 multisig. This app only supports Squads V4. Please use the legacy Squads interface at v3.squads.so"

/-- Error message thrown by `getMultisig` when the account owner is some other
program; the owner base58 text is interpolated into the message. -/
def notOwnedMessage (owner : String) : String :=
  "Account is not owned by the Squads V4 program. Owner: " ++ owner

/-- Error message `getMultisig` maps low-level decode failures to. -/
def invalidMultisigFormatMessage : String :=
  "Invalid multisig account format. This may be a Squads V3 multisig or corrupted data."

/-- Error message thrown by `getVaultTransaction` when no account exists at
the derived address. -/
def txNotFoundMessage : String :=
  "Transaction not found. The transaction may not have been created yet."

/-- Error message thrown by `getVaultTransaction` on an owner mismatch. -/
def invalidTxOwnerMessage : String :=
  "Invalid transaction account owner"

/-- Error message `getVaultTransaction` maps low-level decode failures to. -/
def invalidTxFormatMessage : String :=
  "Invalid transaction data format. The transaction may be corrupted or incomplete."

/-- Environment of the SquadService: the remote ledger, the configured program
id, and the external @sqds/multisig collaborators (account decoders, PDA
derivation, filtered program-account query). `μ π ν κ` are the decoded
multisig, proposal, vault-transaction and config-transaction types. -/
structure SquadEnv (μ π ν κ : Type) where
  store : AccountStore
  programId : String
  decodeMultisig : List Nat → Except String μ
  decodeProposal : List Nat → Except String π
  decodeVaultTx : List Nat → Except String ν
  decodeConfigTx : List Nat → Except String κ
  txPda : String → Nat → String → String
  programAccountsByPrefix : String → Except String (List (String × List Nat))

/-- Values stored in the shared cache by the four cached read operations. The
TypeScript cache stores untyped values and readers cast on the way out; the
tagged union mirrors that single shared store. -/
inductive CachedVal (μ π ν κ : Type) where
  | multisigVal (m : μ)
  | proposalsVal (l : List (String × π))
  | vaultTxVal (v : ν)
  | configTxVal (k : κ)
deriving Repr

/-- The shared cache state of the SquadService. -/
def SquadCache (μ π ν κ : Type) : Type := CacheMap (CachedVal μ π ν κ)

variable {μ π ν κ : Type}

/-- The operation `getMultisig` wraps in `retryWithBackoff`: check existence,
check ownership (special-casing the System Program owner), then decode,
mapping COption/deserialize failures to the invalid-format message. -/
def getMultisigOp (env : SquadEnv μ π ν κ) (multisigPda : String) :
    Except String μ :=
  match env.store multisigPda with
  | none => Except.error accountNotFoundMessage
  | some info =>
      if info.owner != env.programId then
        if info.owner == systemProgramId then
          Except.error squadsV3Message
        else
          Except.error (notOwnedMessage info.owner)
      else
        match env.decodeMultisig info.data with
        | Except.ok m => Except.ok m
        | Except.error e =>
            if strIncludes e "COption" || strIncludes e "deserialize" then
              Except.error invalidMultisigFormatMessage
            else
              Except.error e

/-- Model of `SquadService.getMultisig`: cache-first read under key
`multisig:<pda>:<programId>`, with the retried existence/ownership/decode
pipeline on a miss, caching successful results for CACHE_TTL. -/
def getMultisig (env : SquadEnv μ π ν κ) (c : SquadCache μ π ν κ)
    (multisigPda : String) (useCache : Bool) (now : Nat) :
    Except String (CachedVal μ π ν κ) × SquadCache μ π ν κ :=
  let cacheKey := "multisig:" ++ multisigPda ++ ":" ++ env.programId
  let step := fun (c : SquadCache μ π ν κ) =>
    let out := retryWithBackoff (fun _ => getMultisigOp env multisigPda)
      "Get multisig"
    match out.result with
    | Except.error e => (Except.error e, c)
    | Except.ok m =>
        let v : CachedVal μ π ν κ := CachedVal.multisigVal m
        if useCache then (Except.ok v, cacheSet c cacheKey v CACHE_TTL now)
        else (Except.ok v, c)
  if useCache then
    match cacheGet c cacheKey now with
    | (some v, c1) => (Except.ok v, c1)
    | (none, c1) => step c1
  else step c

/-- The per-item decode-and-drop mapping of `getProposalsByMultisig`: decode
each returned account, keep `(pubkey, decoded)` pairs, drop items whose decode
throws. -/
def decodeProposalEntries (decode : List Nat → Except String π)
    (accounts : List (String × List Nat)) : List (String × π) :=
  accounts.filterMap (fun a =>
    match decode a.2 with
    | Except.ok p => some (a.1, p)
    | Except.error _ => none)

/-- Model of `SquadService.getProposalsByMultisig`: cache-first read under key
`proposals:<pda>:<programId>`; on a miss, run the filtered program-account
query through the retrying reader, decode each item dropping failures, and
cache the surviving list. -/
def getProposalsByMultisig (env : SquadEnv μ π ν κ) (c : SquadCache μ π ν κ)
    (multisigPda : String) (useCache : Bool) (now : Nat) :
    Except String (CachedVal μ π ν κ) × SquadCache μ π ν κ :=
  let cacheKey := "proposals:" ++ multisigPda ++ ":" ++ env.programId
  let step := fun (c : SquadCache μ π ν κ) =>
    let out := retryWithBackoff (fun _ => env.programAccountsByPrefix multisigPda)
      "Get proposals by multisig"
    match out.result with
    | Except.error e => (Except.error e, c)
    | Except.ok accounts =>
        let v : CachedVal μ π ν κ :=
          CachedVal.proposalsVal (decodeProposalEntries env.decodeProposal accounts)
        if useCache then (Except.ok v, cacheSet c cacheKey v CACHE_TTL now)
        else (Except.ok v, c)
  if useCache then
    match cacheGet c cacheKey now with
    | (some v, c1) => (Except.ok v, c1)
    | (none, c1) => step c1
  else step c

/-- The operation `getVaultTransaction` wraps in `retryWithBackoff`: check
existence and ownership at the derived transaction address, then decode,
mapping buffer/offset failures to the invalid-format message. -/
def getVaultTransactionOp (env : SquadEnv μ π ν κ) (transactionPda : String) :
    Except String ν :=
  match env.store transactionPda with
  | none => Except.error txNotFoundMessage
  | some info =>
      if info.owner != env.programId then
        Except.error invalidTxOwnerMessage
      else
        match env.decodeVaultTx info.data with
        | Except.ok v => Except.ok v
        | Except.error e =>
            if strIncludes e "buffer" || strIncludes e "offset" then
              Except.error invalidTxFormatMessage
            else
              Except.error e

/-- Model of `SquadService.getVaultTransaction`: derive the transaction PDA,
cache-first read under key `vaultTx:<pda>:<index>:<programId>`, with the
retried existence/ownership/decode pipeline on a miss. -/
def getVaultTransaction (env : SquadEnv μ π ν κ) (c : SquadCache μ π ν κ)
    (multisigPda : String) (transactionIndex : Nat) (useCache : Bool)
    (now : Nat) :
    Except String (CachedVal μ π ν κ) × SquadCache μ π ν κ :=
  let transactionPda := env.txPda multisigPda transactionIndex env.programId
  let cacheKey := "vaultTx:" ++ multisigPda ++ ":" ++ toString transactionIndex
    ++ ":" ++ env.programId
  let step := fun (c : SquadCache μ π ν κ) =>
    let out := retryWithBackoff (fun _ => getVaultTransactionOp env transactionPda)
      "Get vault transaction"
    match out.result with
    | Except.error e => (Except.error e, c)
    | Except.ok v =>
        let cv : CachedVal μ π ν κ := CachedVal.vaultTxVal v
        if useCache then (Except.ok cv, cacheSet c cacheKey cv CACHE_TTL now)
        else (Except.ok cv, c)
  if useCache then
    match cacheGet c cacheKey now with
    | (some v, c1) => (Except.ok v, c1)
    | (none, c1) => step c1
  else step c

/-- Model of the external library call
`multisig.accounts.ConfigTransaction.fromAccountAddress`: fetch the account at
the address, throw a not-found error when it is absent, and deserialize its
data. The generated account fetcher performs no ownership check. -/
def configTxFromAccountAddress (store : AccountStore)
    (decode : List Nat → Except String κ) (address : String) :
    Except String κ :=
  match store address with
  | none => Except.error ("Unable to find ConfigTransaction account at " ++ address)
  | some info => decode info.data

/-- Model of `SquadService.getConfigTransaction`: derive the transaction PDA,
cache-first read under key `configTx:<pda>:<index>:<programId>`; on a miss,
call the library account fetcher directly through the retrying reader (the
source performs no existence or ownership pre-check here), and cache
successful results. -/
def getConfigTransaction (env : SquadEnv μ π ν κ) (c : SquadCache μ π ν κ)
    (multisigPda : String) (transactionIndex : Nat) (useCache : Bool)
    (now : Nat) :
    Except String (CachedVal μ π ν κ) × SquadCache μ π ν κ :=
  let transactionPda := env.txPda multisigPda transactionIndex env.programId
  let cacheKey := "configTx:" ++ multisigPda ++ ":" ++ toString transactionIndex
    ++ ":" ++ env.programId
  let step := fun (c : SquadCache μ π ν κ) =>
    let out := retryWithBackoff
      (fun _ => configTxFromAccountAddress env.store env.decodeConfigTx transactionPda)
      "Get config transaction"
    match out.result with
    | Except.error e => (Except.error e, c)
    | Except.ok k =>
        let cv : CachedVal μ π ν κ := CachedVal.configTxVal k
        if useCache then (Except.ok cv, cacheSet c cacheKey cv CACHE_TTL now)
        else (Except.ok cv, c)
  if useCache then
    match cacheGet c cacheKey now with
    | (some v, c1) => (Except.ok v, c1)
    | (none, c1) => step c1
  else step c

end Squad

namespace CrossChainTx

/-- Model of the `ChainConfig` shape (src/types/chain.ts): the fields the
pipeline reads. -/
structure ChainConfig where
  id : String
  name : String
  rpcUrl : String
  squadsV4ProgramId : String
  explorerUrl : Option String
deriving Repr, DecidableEq

/-- Result of `getLatestBlockhash` on an endpoint: the checkpoint a network
requires embedded in a transaction. -/
structure BlockhashInfo where
  blockhash : String
  lastValidBlockHeight : Nat
deriving Repr, DecidableEq

/-- The remote RPC collaborator for checkpoint reads: what
`getLatestBlockhash("finalized")` returns at each endpoint URL at call time. -/
def BlockhashRpc : Type := String → BlockhashInfo

/-- Model of `CrossChainTransactionService.getRecentBlockhash`: connect to the
given endpoint and read the latest finalized blockhash. -/
def getRecentBlockhash (rpc : BlockhashRpc) (rpcUrl : String) : BlockhashInfo :=
  rpc rpcUrl

/-- One slot of a legacy transaction signature array
(`SignaturePubkeyPair`). -/
structure SignaturePubkeyPair where
  publicKey : String
  signature : Option (List Nat)
deriving Repr, DecidableEq

/-- Model of a legacy `Transaction` from @solana/web3.js: the fields the
pipeline reads or writes, plus the instruction list kept opaque. -/
structure LegacyTransaction where
  recentBlockhash : Option String
  feePayer : Option String
  signatures : List SignaturePubkeyPair
  instructions : List Nat
deriving Repr, DecidableEq

/-- Header of a versioned message. -/
structure MessageHeader where
  numRequiredSignatures : Nat
  numReadonlySignedAccounts : Nat
  numReadonlyUnsignedAccounts : Nat
deriving Repr, DecidableEq

/-- Model of a versioned `MessageV0` from @solana/web3.js: its enumerable
fields, with instructions and address-table lookups kept opaque. -/
structure MessageV0 where
  header : MessageHeader
  staticAccountKeys : List String
  recentBlockhash : String
  compiledInstructions : List Nat
  addressTableLookups : List Nat
deriving Repr, DecidableEq

/-- Model of a `VersionedTransaction`: a versioned message plus one raw
signature buffer per required signer. -/
structure VersionedTransactionValue where
  message : MessageV0
  signatures : List (List Nat)
deriving Repr, DecidableEq

/-- The 64-byte all-zero placeholder signature. -/
def defaultSignature : List Nat := List.replicate 64 0

/-- Model of the `VersionedTransaction` constructor applied to a message with
no signature list: one default signature per required signer. -/
def versionedTransactionOfMessage (m : MessageV0) : VersionedTransactionValue :=
  { message := m,
    signatures := List.replicate m.header.numRequiredSignatures defaultSignature }

/-- The duck-typed transaction union `Transaction | VersionedTransaction`, as
a tagged variant. -/
inductive SolTransaction where
  | legacy (t : LegacyTransaction)
  | versioned (t : VersionedTransactionValue)
deriving Repr, DecidableEq

/-- The block-reference field of either transaction encoding. -/
def blockRef : SolTransaction → Option String
  | SolTransaction.legacy t => t.recentBlockhash
  | SolTransaction.versioned t => some t.message.recentBlockhash

/-- Model of `CrossChainTransactionService.injectBlockhash`: fetch the latest
blockhash from the target chain endpoint, then either mutate the legacy
transaction in place (also defaulting the fee payer to the first signature
slot key when unset), or build a new versioned message copying every field
of the original and overriding only the blockhash, wrapped in a new
versioned transaction. -/
def injectBlockhash (rpc : BlockhashRpc) (transaction : SolTransaction)
    (targetChain : ChainConfig) : SolTransaction :=
  let blockhash := (getRecentBlockhash rpc targetChain.rpcUrl).blockhash
  match transaction with
  | SolTransaction.legacy t =>
      SolTransaction.legacy
        { t with
          recentBlockhash := some blockhash,
          feePayer := t.feePayer.orElse
            (fun _ => (t.signatures.head?).map (fun s => s.publicKey)) }
  | SolTransaction.versioned t =>
      let newMessage := { t.message with recentBlockhash := blockhash }
      SolTransaction.versioned (versionedTransactionOfMessage newMessage)

end CrossChainTx

namespace TransactionSigner

open CrossChainTx

/-- The wallet-kind enumeration (src/types/wallet.ts is not under src/; the
two members are those referenced throughout the source and named by the
design document as Hardware and Browser). -/
inductive WalletType where
  | LEDGER
  | BROWSER
deriving Repr, DecidableEq

/-- Error message thrown when hardware signing is requested without a
derivation path. -/
def missingDerivationPathMessage : String :=
  "Derivation path is required for Ledger signing"

/-- Error message thrown when browser signing is requested without a wallet
adapter delegate. -/
def missingAdapterMessage : String :=
  "Wallet adapter is required for browser wallet signing"

/-- Error message thrown for any other wallet type; the TypeScript template
interpolates the null wallet type as the text null. -/
def unsupportedWalletTypeMessage : String :=
  "Unsupported wallet type: null"

/-- Error message thrown when a legacy transaction to be hardware-signed has
no fee payer. -/
def feePayerNotSetMessage : String :=
  "Transaction fee payer is not set"

/-- External signing back-ends for legacy transactions: the hardware service
(message bytes and derivation path to raw signature), the message serializer,
the signature-attach step, and the optional browser adapter delegate. -/
structure LegacyBackends where
  ledgerSign : List Nat → String → Except String (List Nat)
  serializeMessage : LegacyTransaction → List Nat
  addSignature : LegacyTransaction → String → List Nat → LegacyTransaction
  walletAdapter : Option (LegacyTransaction → Except String LegacyTransaction)

/-- Model of `TransactionSignerService.signTransaction` (legacy encoding):
dispatch on the wallet type; hardware signing serializes the message, calls
the hardware back-end with the derivation path, and attaches the returned
signature against the fee payer; browser signing forwards the whole
transaction to the adapter; anything else fails. -/
def signTransaction (b : LegacyBackends) (transaction : LegacyTransaction)
    (walletType : Option WalletType) (derivationPath : Option String) :
    Except String LegacyTransaction :=
  match walletType with
  | some WalletType.LEDGER =>
      match derivationPath with
      | none => Except.error missingDerivationPathMessage
      | some path =>
          match b.ledgerSign (b.serializeMessage transaction) path with
          | Except.error e => Except.error e
          | Except.ok signature =>
              match transaction.feePayer with
              | none => Except.error feePayerNotSetMessage
              | some publicKey =>
                  Except.ok (b.addSignature transaction publicKey signature)
  | some WalletType.BROWSER =>
      match b.walletAdapter with
      | none => Except.error missingAdapterMessage
      | some adapter => adapter transaction
  | none => Except.error unsupportedWalletTypeMessage

/-- External signing back-ends for versioned transactions. -/
structure VersionedBackends where
  ledgerSign : List Nat → String → Except String (List Nat)
  serializeMessage : MessageV0 → List Nat
  addSignature : VersionedTransactionValue → String → List Nat →
    VersionedTransactionValue
  walletAdapter :
    Option (VersionedTransactionValue → Except String VersionedTransactionValue)

/-- Model of `TransactionSignerService.signVersionedTransaction`: as for the
legacy encoding, but hardware signing serializes the message bytes and
attaches the signature against the first static account key. -/
def signVersionedTransaction (b : VersionedBackends)
    (transaction : VersionedTransactionValue) (walletType : Option WalletType)
    (derivationPath : Option String) :
    Except String VersionedTransactionValue :=
  match walletType with
  | some WalletType.LEDGER =>
      match derivationPath with
      | none => Except.error missingDerivationPathMessage
      | some path =>
          match b.ledgerSign (b.serializeMessage transaction.message) path with
          | Except.error e => Except.error e
          | Except.ok signature =>
              match transaction.message.staticAccountKeys.head? with
              | none => Except.error "Invalid public key input"
              | some firstKey =>
                  Except.ok (b.addSignature transaction firstKey signature)
  | some WalletType.BROWSER =>
      match b.walletAdapter with
      | none => Except.error missingAdapterMessage
      | some adapter => adapter transaction
  | none => Except.error unsupportedWalletTypeMessage

end TransactionSigner

namespace Squad

/-- Concrete environment exhibiting the wrong-owner retry interaction: the
account at the queried address is owned by a plausible base58 program id that
happens to contain the digits 429. -/
def ownerWith429 : String := "Fg6PaFpoGXkYsidMpWTK6W2BeZ7FEfcYkg429zPFsLnS"

/-- Concrete SquadService environment for the wrong-owner scenario. -/
def envWrongOwner : SquadEnv Nat Nat Nat Nat :=
  { store := fun a =>
      if a == "MsPda11111" then some { owner := ownerWith429, data := [0] }
      else none,
    programId := "SQDS4CpFdd1",
    decodeMultisig := fun _ => Except.error "decode must not be reached",
    decodeProposal := fun _ => Except.error "unused",
    decodeVaultTx := fun _ => Except.error "unused",
    decodeConfigTx := fun _ => Except.error "unused",
    txPda := fun _ _ _ => "TxPda11111",
    programAccountsByPrefix := fun _ => Except.ok [] }

/-- Concrete SquadService environment for the config-transaction scenario: the
account at the derived transaction address exists, is owned by a different
program, and its data decodes successfully. -/
def envConfigTx : SquadEnv Nat Nat Nat Nat :=
  { store := fun a =>
      if a == "CfgTxPda11" then some { owner := "WrongProgram9999", data := [7] }
      else none,
    programId := "SQDS4CpFdd1",
    decodeMultisig := fun _ => Except.error "unused",
    decodeProposal := fun _ => Except.error "unused",
    decodeVaultTx := fun _ => Except.error "unused",
    decodeConfigTx := fun _ => Except.ok 42,
    txPda := fun _ _ _ => "CfgTxPda11",
    programAccountsByPrefix := fun _ => Except.ok [] }

end Squad

section HelperLemmas

open TTLCache

/-- Helper: looking up a key in a cache from which every binding for that key
has been filtered out yields nothing. -/
theorem cacheLookup_filter_ne {α : Type} (c : CacheMap α) (key : String) :
    cacheLookup (c.filter (fun kv => kv.1 != key)) key = none := by
  unfold cacheLookup
  have h : List.find? (fun kv => kv.1 == key)
      (c.filter (fun kv => kv.1 != key)) = none := by
    rw [List.find?_eq_none]
    intro kv hmem
    have h2 := List.of_mem_filter hmem
    simp only [bne_iff_ne, ne_eq] at h2
    simp [h2]
  rw [h]
  rfl

/-- Helper: a successful decode count accounting for `decodeProposalEntries`:
the surviving entries plus the dropped ones partition the query result. -/
theorem decodeProposalEntries_length_add {π : Type}
    (decode : List Nat → Except String π)
    (accounts : List (String × List Nat)) :
    (Squad.decodeProposalEntries decode accounts).length
      + accounts.countP (fun a =>
          match decode a.2 with
          | Except.ok _ => false
          | Except.error _ => true) = accounts.length := by
  induction accounts with
  | nil => simp [Squad.decodeProposalEntries]
  | cons a rest ih =>
      simp only [Squad.decodeProposalEntries] at ih ⊢
      rw [List.filterMap_cons, List.countP_cons]
      cases hd : decode a.2 with
      | ok p =>
          simp [hd]
          omega
      | error e =>
          simp [hd]
          omega

/-- Helper: every entry `decodeProposalEntries` returns is keyed by the public
key of a query-result account whose data decodes to the entry value. -/
theorem decodeProposalEntries_mem {π : Type}
    (decode : List Nat → Except String π)
    (accounts : List (String × List Nat))
    (kp : String × π) (h : kp ∈ Squad.decodeProposalEntries decode accounts) :
    ∃ d, (kp.1, d) ∈ accounts ∧ decode d = Except.ok kp.2 := by
  unfold Squad.decodeProposalEntries at h
  rw [List.mem_filterMap] at h
  obtain ⟨a, ha, hfa⟩ := h
  refine ⟨a.2, ?_, ?_⟩
  · cases hd : decode a.2 with
    | ok p =>
        simp only [hd] at hfa
        cases hfa
        simpa using ha
    | error e => simp [hd] at hfa
  · cases hd : decode a.2 with
    | ok p =>
        simp only [hd] at hfa
        cases hfa
        rfl
    | error e => simp [hd] at hfa

end HelperLemmas

section ClaimC1

open CrossChainTx

/-- C1: after `injectBlockhash(tx, chain)` the resulting transaction's
block-reference field equals the blockhash returned by the target chain's RPC
endpoint at call time, for both encodings; the legacy encoding is updated in
place (all other fields unchanged) with the fee payer defaulting to the first
existing signature slot key when unset, while the versioned encoding yields a
new transaction whose message copies every field of the original and
overrides only the block reference. -/
theorem injectBlockhash_round_trip (rpc : BlockhashRpc) (chain : ChainConfig)
    (tx : SolTransaction) (lt : LegacyTransaction)
    (vt : VersionedTransactionValue) :
    blockRef (injectBlockhash rpc tx chain)
        = some (getRecentBlockhash rpc chain.rpcUrl).blockhash
    ∧ (∃ lt2, injectBlockhash rpc (SolTransaction.legacy lt) chain
          = SolTransaction.legacy lt2
        ∧ lt2.recentBlockhash = some (getRecentBlockhash rpc chain.rpcUrl).blockhash
        ∧ lt2.signatures = lt.signatures
        ∧ lt2.instructions = lt.instructions
        ∧ (∀ p, lt.feePayer = some p → lt2.feePayer = some p)
        ∧ (lt.feePayer = none →
            lt2.feePayer = (lt.signatures.head?).map (fun s => s.publicKey)))
    ∧ (∃ vt2, injectBlockhash rpc (SolTransaction.versioned vt) chain
          = SolTransaction.versioned vt2
        ∧ vt2.message.recentBlockhash = (getRecentBlockhash rpc chain.rpcUrl).blockhash
        ∧ vt2.message.header = vt.message.header
        ∧ vt2.message.staticAccountKeys = vt.message.staticAccountKeys
        ∧ vt2.message.compiledInstructions = vt.message.compiledInstructions
        ∧ vt2.message.addressTableLookups = vt.message.addressTableLookups) := by
  refine ⟨?_, ?_, ?_⟩
  · cases tx with
    | legacy t => rfl
    | versioned t => rfl
  · refine ⟨_, rfl, rfl, rfl, rfl, ?_, ?_⟩
    · intro p hp
      simp [hp, Option.orElse]
    · intro hp
      simp [hp, Option.orElse]
  · exact ⟨_, rfl, rfl, rfl, rfl, rfl, rfl⟩

/-- Witness for C1: the round-trip and field-preservation facts at a concrete
transaction pair and RPC state. -/
theorem injectBlockhash_round_trip_witness :
    blockRef (injectBlockhash (fun _ => { blockhash := "BH1", lastValidBlockHeight := 9 })
        (SolTransaction.legacy
          { recentBlockhash := none, feePayer := none,
            signatures := [{ publicKey := "K1", signature := none }],
            instructions := [3] })
        { id := "c", name := "Chain", rpcUrl := "https://rpc.example",
          squadsV4ProgramId := "P1", explorerUrl := none })
      = some "BH1" :=
  (injectBlockhash_round_trip
    (fun _ => { blockhash := "BH1", lastValidBlockHeight := 9 })
    { id := "c", name := "Chain", rpcUrl := "https://rpc.example",
      squadsV4ProgramId := "P1", explorerUrl := none }
    (SolTransaction.legacy
      { recentBlockhash := none, feePayer := none,
        signatures := [{ publicKey := "K1", signature := none }],
        instructions := [3] })
    { recentBlockhash := none, feePayer := none,
      signatures := [{ publicKey := "K1", signature := none }],
      instructions := [3] }
    { message :=
        { header := { numRequiredSignatures := 1,
                      numReadonlySignedAccounts := 0,
                      numReadonlyUnsignedAccounts := 0 },
          staticAccountKeys := ["K1"], recentBlockhash := "OLD",
          compiledInstructions := [2], addressTableLookups := [] },
      signatures := [List.replicate 64 0] }).1

end ClaimC1

section ClaimC9

open ErrorHandler

/-- C9: the Error Classifier lowercases the failure text and scans the rule
list in order, returning the message and duration of the first rule any of
whose keywords occurs case-insensitively as a substring (so RATE LIMIT
EXCEEDED matches the keyword rate limit); when no rule matches it returns the
raw failure text with the default duration of 5000ms. -/
theorem errorClassifier_first_match (e : String) (patterns : List ErrorPattern)
    (p : ErrorPattern) :
    matchErrorPattern e patterns
        = patterns.find? (fun q =>
            q.keywords.any (fun k => strIncludes (strToLower e) (strToLower k)))
    ∧ (matchErrorPattern e patterns = some p →
        getErrorMessage e patterns = (p.message, p.duration))
    ∧ (matchErrorPattern e patterns = none →
        getErrorMessage e patterns = (e, some 5000))
    ∧ matchErrorPattern "RATE LIMIT EXCEEDED"
        [{ keywords := ["rate limit"], message := "rl", duration := some 1 }]
        = some { keywords := ["rate limit"], message := "rl", duration := some 1 } := by
  refine ⟨?_, ?_, ?_, ?_⟩
  · unfold matchErrorPattern
    induction patterns with
    | nil => rfl
    | cons q qs ih =>
        simp only [matchLoop, List.find?, patternMatches]
        by_cases hq : (q.keywords.any fun k => strIncludes (strToLower e) (strToLower k)) = true
        · simp [hq]
        · simp only [Bool.not_eq_true] at hq
          simp [hq, ih]
  · intro hm
    unfold getErrorMessage
    rw [hm]
  · intro hm
    unfold getErrorMessage
    rw [hm]
    rfl
  · decide

/-- Witness for C9: the first-match characterization, the fallback branch and
the case-insensitive example evaluated at concrete inputs. -/
theorem errorClassifier_first_match_witness :
    matchErrorPattern "boom" RPC_ERROR_PATTERNS
        = RPC_ERROR_PATTERNS.find? (fun q =>
            q.keywords.any (fun k => strIncludes (strToLower "boom") (strToLower k)))
    ∧ (matchErrorPattern "boom" RPC_ERROR_PATTERNS = none →
        getErrorMessage "boom" RPC_ERROR_PATTERNS = ("boom", some 5000)) :=
  ⟨(errorClassifier_first_match "boom" RPC_ERROR_PATTERNS
      { keywords := [], message := "", duration := none }).1,
   (errorClassifier_first_match "boom" RPC_ERROR_PATTERNS
      { keywords := [], message := "", duration := none }).2.2.1⟩

end ClaimC9

section ClaimC2

open Squad

/-- C2: an operation failing with a rate-limit-shaped error (message
containing 403 or 429) on the first two attempts and succeeding on the third
returns the success value with backoff delays of 1000ms then 2000ms; an
operation failing rate-limit-shaped on all three attempts raises the
distinguished rate-limited error, which carries the guidance to configure a
different endpoint and is the first rule the Error Classifier matches. -/
theorem retryWithBackoff_rate_limited (α : Type)
    (op opAll : Nat → Except String α) (operationName : String) (v : α)
    (e1 e2 : String)
    (h1 : op 1 = Except.error e1) (hr1 : isRateLimitMessage e1 = true)
    (h2 : op 2 = Except.error e2) (hr2 : isRateLimitMessage e2 = true)
    (h3 : op 3 = Except.ok v)
    (hAll : ∀ i, 1 ≤ i → i ≤ 3 →
      ∃ e, opAll i = Except.error e ∧ isRateLimitMessage e = true) :
    retryWithBackoff op operationName
        = { result := Except.ok v, delays := [1000, 2000], attemptsMade := 3 }
    ∧ retryWithBackoff opAll operationName
        = { result := Except.error rateLimitExceededMessage,
            delays := [1000, 2000], attemptsMade := 3 }
    ∧ strIncludes rateLimitExceededMessage "configure a custom RPC endpoint" = true
    ∧ ErrorHandler.matchErrorPattern rateLimitExceededMessage
        ErrorHandler.RPC_ERROR_PATTERNS
        = some { keywords := ["RPC rate limit", "403", "429"],
                 message := "RPC rate limit exceeded. Try using a custom RPC provider (configure in Chain Management).",
                 duration := some 5000 } := by
  refine ⟨?_, ?_, by decide, by rfl⟩
  · simp [retryWithBackoff, retryLoop, MAX_RETRIES, RETRY_DELAY,
      h1, h2, h3, hr1, hr2]
  · obtain ⟨ea1, ha1, hra1⟩ := hAll 1 (by norm_num) (by norm_num)
    obtain ⟨ea2, ha2, hra2⟩ := hAll 2 (by norm_num) (by norm_num)
    obtain ⟨ea3, ha3, hra3⟩ := hAll 3 (by norm_num) (by norm_num)
    simp [retryWithBackoff, retryLoop, MAX_RETRIES, RETRY_DELAY,
      ha1, ha2, ha3, hra1, hra2, hra3]

/-- Witness for C2: a concrete operation that is rate-limited twice then
succeeds, and one that is rate-limited persistently. -/
theorem retryWithBackoff_rate_limited_witness :
    retryWithBackoff
        (fun n => if n = 3 then Except.ok 7
          else Except.error "HTTP 429 Too Many Requests") "Get multisig"
        = { result := Except.ok 7, delays := [1000, 2000], attemptsMade := 3 }
    ∧ retryWithBackoff (fun _ => (Except.error "403 Forbidden" : Except String Nat))
        "Get multisig"
        = { result := Except.error rateLimitExceededMessage,
            delays := [1000, 2000], attemptsMade := 3 } := by
  have h := retryWithBackoff_rate_limited Nat
    (fun n => if n = 3 then Except.ok 7
      else Except.error "HTTP 429 Too Many Requests")
    (fun _ => Except.error "403 Forbidden") "Get multisig" 7
    "HTTP 429 Too Many Requests" "HTTP 429 Too Many Requests"
    (by rfl) (by decide) (by rfl) (by decide) (by rfl)
    (fun i _ _ => ⟨"403 Forbidden", rfl, by decide⟩)
  exact ⟨h.1, h.2.1⟩

end ClaimC2

section ClaimC3

open Squad

/-- C3: an operation whose first failure is not rate-limit-shaped (contains
neither 403 nor 429) propagates that error from the first attempt, with no
backoff delay and no second invocation: the outcome records a single attempt
and agrees for any operation with the same first attempt. -/
theorem retryWithBackoff_no_retry (α : Type)
    (op op2 : Nat → Except String α) (operationName : String) (e : String)
    (h1 : op 1 = Except.error e) (hnr : isRateLimitMessage e = false)
    (hagree : op2 1 = op 1) :
    retryWithBackoff op operationName
        = { result := Except.error e, delays := [], attemptsMade := 1 }
    ∧ retryWithBackoff op2 operationName = retryWithBackoff op operationName := by
  constructor
  · simp [retryWithBackoff, retryLoop, MAX_RETRIES, h1, hnr]
  · simp [retryWithBackoff, retryLoop, MAX_RETRIES, hagree, h1, hnr]

/-- Witness for C3: a concrete non-rate-limit failure fails once with no
delays, and a second operation differing on later attempts yields the same
outcome. -/
theorem retryWithBackoff_no_retry_witness :
    retryWithBackoff (fun _ => (Except.error "boom" : Except String Nat)) "Get proposal"
        = { result := Except.error "boom", delays := [], attemptsMade := 1 }
    ∧ retryWithBackoff
        (fun n => if n = 1 then (Except.error "boom" : Except String Nat)
          else Except.ok 5) "Get proposal"
        = retryWithBackoff (fun _ => (Except.error "boom" : Except String Nat))
            "Get proposal" :=
  retryWithBackoff_no_retry Nat (fun _ => Except.error "boom")
    (fun n => if n = 1 then Except.error "boom" else Except.ok 5)
    "Get proposal" "boom" rfl (by decide) rfl

end ClaimC3

section ClaimC7

open TTLCache

/-- C7: for every (key, value, ttl) with a positive ttl, `get` immediately
after `set` returns the value; once the ttl has elapsed (now2 at or past the
expiry timestamp) both `get` and `has` treat the entry as absent, returning
none and false, and lazily remove the expired binding from the store. The
cache implementation file is not under src/, so the cache operations are
modelled from the spec. -/
theorem cache_set_get_ttl (α : Type) (c : CacheMap α) (key : String)
    (value : α) (ttl now now2 : Nat) (httl : 0 < ttl)
    (helapsed : now + ttl ≤ now2) :
    (cacheGet (cacheSet c key value ttl now) key now).1 = some value
    ∧ (cacheGet (cacheSet c key value ttl now) key now2).1 = none
    ∧ (cacheHas (cacheSet c key value ttl now) key now2).1 = false
    ∧ cacheLookup (cacheGet (cacheSet c key value ttl now) key now2).2 key = none
    ∧ cacheLookup (cacheHas (cacheSet c key value ttl now) key now2).2 key = none := by
  have hlook : cacheLookup (cacheSet c key value ttl now) key
      = some { value := value, expiresAt := now + ttl } := by
    simp [cacheLookup, cacheSet, List.find?]
  have hfresh : ¬ (now + ttl ≤ now) := by omega
  have hfilter :
      (cacheSet c key value ttl now).filter (fun kv => kv.1 != key)
        = c.filter (fun kv => kv.1 != key) := by
    simp [cacheSet, List.filter_filter]
  refine ⟨?_, ?_, ?_, ?_, ?_⟩
  · simp [cacheGet, hlook, hfresh]
  · simp [cacheGet, hlook, helapsed]
  · simp [cacheHas, hlook, helapsed]
  · rw [show (cacheGet (cacheSet c key value ttl now) key now2).2
        = (cacheSet c key value ttl now).filter (fun kv => kv.1 != key) by
      simp [cacheGet, hlook, helapsed]]
    rw [hfilter]
    exact cacheLookup_filter_ne c key
  · rw [show (cacheHas (cacheSet c key value ttl now) key now2).2
        = (cacheSet c key value ttl now).filter (fun kv => kv.1 != key) by
      simp [cacheHas, hlook, helapsed]]
    rw [hfilter]
    exact cacheLookup_filter_ne c key

/-- Witness for C7: set-then-get round trip and expiry at a concrete key,
value, ttl and clock. -/
theorem cache_set_get_ttl_witness :
    (cacheGet (cacheSet ([] : CacheMap Nat) "test-key" 7 1000 0) "test-key" 0).1
        = some 7
    ∧ (cacheGet (cacheSet ([] : CacheMap Nat) "test-key" 7 1000 0) "test-key" 1001).1
        = none :=
  ⟨(cache_set_get_ttl Nat [] "test-key" 7 1000 0 1001 (by decide) (by decide)).1,
   (cache_set_get_ttl Nat [] "test-key" 7 1000 0 1001 (by decide) (by decide)).2.1⟩

end ClaimC7

section ClaimC8

open TransactionSigner CrossChainTx

/-- C8: both signing entry points fail with the missing-derivation-path error
when the wallet type is Hardware (Ledger) and no derivation path is given,
and fail with the unsupported-wallet-type error when the wallet type is unset
(the only inhabitant of the type union beyond Hardware and Browser); in all
four cases the outcome is independent of the signing back-ends, so no
back-end is invoked. -/
theorem signer_dispatch_failures (bL bL2 : LegacyBackends)
    (bV bV2 : VersionedBackends) (lt : LegacyTransaction)
    (vt : VersionedTransactionValue) (path : Option String) :
    signTransaction bL lt (some WalletType.LEDGER) none
        = Except.error missingDerivationPathMessage
    ∧ signVersionedTransaction bV vt (some WalletType.LEDGER) none
        = Except.error missingDerivationPathMessage
    ∧ signTransaction bL lt none path
        = Except.error unsupportedWalletTypeMessage
    ∧ signVersionedTransaction bV vt none path
        = Except.error unsupportedWalletTypeMessage
    ∧ signTransaction bL lt (some WalletType.LEDGER) none
        = signTransaction bL2 lt (some WalletType.LEDGER) none
    ∧ signVersionedTransaction bV vt (some WalletType.LEDGER) none
        = signVersionedTransaction bV2 vt (some WalletType.LEDGER) none
    ∧ signTransaction bL lt none path = signTransaction bL2 lt none path
    ∧ signVersionedTransaction bV vt none path
        = signVersionedTransaction bV2 vt none path :=
  ⟨rfl, rfl, rfl, rfl, rfl, rfl, rfl, rfl⟩

end ClaimC8

section ClaimC6

open Squad

/-- C6: when the filtered program-account query succeeds with N accounts of
which exactly one fails to decode as a Proposal, `getProposalsByMultisig`
(fresh cache) does not throw: it returns the N-1 successfully decoded
entries, each keyed by the public key of the account it was decoded from. -/
theorem getProposalsByMultisig_partial_failure (μ π ν κ : Type)
    (env : SquadEnv μ π ν κ) (multisigPda : String) (now : Nat)
    (accounts : List (String × List Nat))
    (hquery : env.programAccountsByPrefix multisigPda = Except.ok accounts)
    (hone : accounts.countP (fun a =>
        match env.decodeProposal a.2 with
        | Except.ok _ => false
        | Except.error _ => true) = 1) :
    (getProposalsByMultisig env [] multisigPda true now).1
        = Except.ok (CachedVal.proposalsVal
            (decodeProposalEntries env.decodeProposal accounts))
    ∧ (decodeProposalEntries env.decodeProposal accounts).length
        = accounts.length - 1
    ∧ ∀ kp ∈ decodeProposalEntries env.decodeProposal accounts,
        ∃ d, (kp.1, d) ∈ accounts ∧ env.decodeProposal d = Except.ok kp.2 := by
  refine ⟨?_, ?_, ?_⟩
  · simp [getProposalsByMultisig, TTLCache.cacheGet, TTLCache.cacheLookup,
      retryWithBackoff, retryLoop, MAX_RETRIES, hquery]
  · have h := decodeProposalEntries_length_add env.decodeProposal accounts
    omega
  · intro kp hkp
    exact decodeProposalEntries_mem env.decodeProposal accounts kp hkp

/-- Witness for C6: a three-account query result whose middle account fails to
decode yields the other two entries and no failure. -/
theorem getProposalsByMultisig_partial_failure_witness :
    (getProposalsByMultisig
        { store := fun _ => none,
          programId := "P1",
          decodeMultisig := fun _ => (Except.error "unused" : Except String Nat),
          decodeProposal := fun d =>
            if d = [1] then Except.error "bad proposal" else Except.ok d.length,
          decodeVaultTx := fun _ => (Except.error "unused" : Except String Nat),
          decodeConfigTx := fun _ => (Except.error "unused" : Except String Nat),
          txPda := fun _ _ _ => "T1",
          programAccountsByPrefix := fun _ =>
            Except.ok [("A", [2, 2]), ("B", [1]), ("C", [3, 3, 3])] }
        [] "Ms1" true 0).1
      = Except.ok (CachedVal.proposalsVal [("A", 2), ("C", 3)])
    ∧ ([("A", (2 : Nat)), ("C", 3)] : List (String × Nat)).length = 3 - 1 := by
  have h := getProposalsByMultisig_partial_failure Nat Nat Nat Nat
    { store := fun _ => none,
      programId := "P1",
      decodeMultisig := fun _ => (Except.error "unused" : Except String Nat),
      decodeProposal := fun d =>
        if d = [1] then Except.error "bad proposal" else Except.ok d.length,
      decodeVaultTx := fun _ => (Except.error "unused" : Except String Nat),
      decodeConfigTx := fun _ => (Except.error "unused" : Except String Nat),
      txPda := fun _ _ _ => "T1",
      programAccountsByPrefix := fun _ =>
        Except.ok [("A", [2, 2]), ("B", [1]), ("C", [3, 3, 3])] }
    "Ms1" 0 [("A", [2, 2]), ("B", [1]), ("C", [3, 3, 3])] rfl (by decide)
  refine ⟨?_, by decide⟩
  have h1 := h.1
  rw [show decodeProposalEntries
      (fun d => if d = [1] then Except.error "bad proposal"
        else (Except.ok d.length : Except String Nat))
      [("A", [2, 2]), ("B", [1]), ("C", [3, 3, 3])]
      = [("A", 2), ("C", 3)] by rfl] at h1
  exact h1

end ClaimC6

section ClaimC10

open Squad

/-- C10: the four cached read operations invoked with useCache set to false
neither read nor write the cache: the cache state after each call equals the
state before, and the returned result does not depend on the cache contents
or the clock. -/
theorem useCache_false_frame (μ π ν κ : Type) (env : SquadEnv μ π ν κ)
    (c c2 : SquadCache μ π ν κ) (multisigPda : String)
    (transactionIndex : Nat) (now now2 : Nat) :
    (getMultisig env c multisigPda false now).2 = c
    ∧ (getProposalsByMultisig env c multisigPda false now).2 = c
    ∧ (getVaultTransaction env c multisigPda transactionIndex false now).2 = c
    ∧ (getConfigTransaction env c multisigPda transactionIndex false now).2 = c
    ∧ (getMultisig env c multisigPda false now).1
        = (getMultisig env c2 multisigPda false now2).1
    ∧ (getProposalsByMultisig env c multisigPda false now).1
        = (getProposalsByMultisig env c2 multisigPda false now2).1
    ∧ (getVaultTransaction env c multisigPda transactionIndex false now).1
        = (getVaultTransaction env c2 multisigPda transactionIndex false now2).1
    ∧ (getConfigTransaction env c multisigPda transactionIndex false now).1
        = (getConfigTransaction env c2 multisigPda transactionIndex false now2).1 := by
  refine ⟨?_, ?_, ?_, ?_, ?_, ?_, ?_, ?_⟩
  · unfold getMultisig
    simp only [Bool.false_eq_true, if_false]
    cases (retryWithBackoff (fun _ => getMultisigOp env multisigPda)
        "Get multisig").result <;> simp
  · unfold getProposalsByMultisig
    simp only [Bool.false_eq_true, if_false]
    cases (retryWithBackoff (fun _ => env.programAccountsByPrefix multisigPda)
        "Get proposals by multisig").result <;> simp
  · unfold getVaultTransaction
    simp only [Bool.false_eq_true, if_false]
    cases (retryWithBackoff (fun _ => getVaultTransactionOp env
        (env.txPda multisigPda transactionIndex env.programId))
        "Get vault transaction").result <;> simp
  · unfold getConfigTransaction
    simp only [Bool.false_eq_true, if_false]
    cases (retryWithBackoff (fun _ => configTxFromAccountAddress env.store
        env.decodeConfigTx (env.txPda multisigPda transactionIndex env.programId))
        "Get config transaction").result <;> simp
  · unfold getMultisig
    simp only [Bool.false_eq_true, if_false]
    cases (retryWithBackoff (fun _ => getMultisigOp env multisigPda)
        "Get multisig").result <;> simp
  · unfold getProposalsByMultisig
    simp only [Bool.false_eq_true, if_false]
    cases (retryWithBackoff (fun _ => env.programAccountsByPrefix multisigPda)
        "Get proposals by multisig").result <;> simp
  · unfold getVaultTransaction
    simp only [Bool.false_eq_true, if_false]
    cases (retryWithBackoff (fun _ => getVaultTransactionOp env
        (env.txPda multisigPda transactionIndex env.programId))
        "Get vault transaction").result <;> simp
  · unfold getConfigTransaction
    simp only [Bool.false_eq_true, if_false]
    cases (retryWithBackoff (fun _ => configTxFromAccountAddress env.store
        env.decodeConfigTx (env.txPda multisigPda transactionIndex env.programId))
        "Get config transaction").result <;> simp

end ClaimC10

section ClaimC4

open Squad

set_option maxRecDepth 10000 in
/-- C4 (amended): for an existing account whose owner differs from the
configured program id, `getMultisig` (fresh cache) fails with the Squads V3
wrong-program-version message when the owner is the System Program, and with
the WrongOwner message otherwise provided that message is not
rate-limit-shaped; when the owner base58 text contains 403 or 429 the retry
layer misreads the wrong-owner failure as rate-limited and, after three
attempts, raises the rate-limit error instead. In every case the decode step
is never attempted (the outcome is independent of the decoder), and an absent
account fails with the NotFound message. -/
theorem getMultisig_ownership_validation (μ π ν κ : Type)
    (env env2 : SquadEnv μ π ν κ) (multisigPda pda2 : String)
    (info : AccountInfo) (now : Nat)
    (hacc : env.store multisigPda = some info)
    (hdiff : info.owner ≠ env.programId) :
    (info.owner = systemProgramId →
      (getMultisig env [] multisigPda true now).1
        = Except.error squadsV3Message)
    ∧ (info.owner ≠ systemProgramId →
        isRateLimitMessage (notOwnedMessage info.owner) = false →
        (getMultisig env [] multisigPda true now).1
          = Except.error (notOwnedMessage info.owner))
    ∧ (info.owner ≠ systemProgramId →
        isRateLimitMessage (notOwnedMessage info.owner) = true →
        (getMultisig env [] multisigPda true now).1
          = Except.error rateLimitExceededMessage)
    ∧ (∀ d d2 : List Nat → Except String μ,
        getMultisig { env with decodeMultisig := d } [] multisigPda true now
          = getMultisig { env with decodeMultisig := d2 } [] multisigPda true now)
    ∧ (env2.store pda2 = none →
        (getMultisig env2 [] pda2 true now).1
          = Except.error accountNotFoundMessage) := by
  have hbne : (info.owner != env.programId) = true := by
    simp [bne_iff_ne, hdiff]
  have hop : ∀ d0 : List Nat → Except String μ,
      getMultisigOp { env with decodeMultisig := d0 } multisigPda
        = (if info.owner == systemProgramId then Except.error squadsV3Message
           else Except.error (notOwnedMessage info.owner)) := by
    intro d0
    simp [getMultisigOp, hacc, hbne]
  have hopSelf : getMultisigOp env multisigPda
      = (if info.owner == systemProgramId then Except.error squadsV3Message
         else Except.error (notOwnedMessage info.owner)) := by
    simp [getMultisigOp, hacc, hbne]
  refine ⟨?_, ?_, ?_, ?_, ?_⟩
  · intro hsys
    have hrl : isRateLimitMessage squadsV3Message = false := by decide
    simp [getMultisig, TTLCache.cacheGet, TTLCache.cacheLookup,
      retryWithBackoff, retryLoop, MAX_RETRIES, hopSelf, hsys, hrl]
  · intro hsys hrl
    have hbsys : (info.owner == systemProgramId) = false := by
      simp [beq_iff_eq, hsys]
    simp [getMultisig, TTLCache.cacheGet, TTLCache.cacheLookup,
      retryWithBackoff, retryLoop, MAX_RETRIES, hopSelf, hbsys, hrl]
  · intro hsys hrl
    have hbsys : (info.owner == systemProgramId) = false := by
      simp [beq_iff_eq, hsys]
    simp [getMultisig, TTLCache.cacheGet, TTLCache.cacheLookup,
      retryWithBackoff, retryLoop, MAX_RETRIES, hopSelf, hbsys, hrl]
  · intro d d2
    unfold getMultisig
    rw [hop d, hop d2]
  · intro habs
    have hopAbs : getMultisigOp env2 pda2 = Except.error accountNotFoundMessage := by
      simp [getMultisigOp, habs]
    have hrl : isRateLimitMessage accountNotFoundMessage = false := by decide
    simp [getMultisig, TTLCache.cacheGet, TTLCache.cacheLookup,
      retryWithBackoff, retryLoop, MAX_RETRIES, hopAbs, hrl]

set_option maxRecDepth 10000 in
/-- Witness for C4 (amended): the rate-limit-shaped wrong owner surfaces the
rate-limit error, and a missing account surfaces the NotFound message. -/
theorem getMultisig_ownership_validation_witness :
    (getMultisig envWrongOwner [] "MsPda11111" true 0).1
        = Except.error rateLimitExceededMessage
    ∧ (getMultisig envWrongOwner [] "OtherPda99" true 0).1
        = Except.error accountNotFoundMessage := by
  have h := getMultisig_ownership_validation Nat Nat Nat Nat
    envWrongOwner envWrongOwner "MsPda11111" "OtherPda99"
    { owner := ownerWith429, data := [0] } 0 (by rfl) (by decide)
  exact ⟨h.2.2.1 (by decide) (by decide), h.2.2.2.2 (by rfl)⟩

set_option maxRecDepth 10000 in
/-- Counterexample to C4 as stated: the account at the address exists with an
owner different from the configured program id, yet `getMultisig` does not
fail with the WrongOwner-classified error: because the owner base58 text
contains the digits 429, the wrong-owner message is treated as rate-limited,
retried, and surfaced as the rate-limit error, which the Error Classifier
matches to its rate-limit rule. -/
theorem getMultisig_ownership_counterexample :
    (getMultisig envWrongOwner [] "MsPda11111" true 0).1
        = Except.error rateLimitExceededMessage
    ∧ envWrongOwner.store "MsPda11111"
        = some { owner := ownerWith429, data := [0] }
    ∧ ownerWith429 ≠ envWrongOwner.programId
    ∧ ownerWith429 ≠ systemProgramId
    ∧ rateLimitExceededMessage ≠ notOwnedMessage ownerWith429
    ∧ rateLimitExceededMessage ≠ squadsV3Message
    ∧ ErrorHandler.matchErrorPattern rateLimitExceededMessage
        ErrorHandler.RPC_ERROR_PATTERNS
        = some { keywords := ["RPC rate limit", "403", "429"],
                 message := "RPC rate limit exceeded. Try using a custom RPC provider (configure in Chain Management).",
                 duration := some 5000 } := by
  refine ⟨by rfl, by rfl, by decide, by decide, by decide, by decide, by rfl⟩

end ClaimC4

section ClaimC5

open Squad

/-- C5 (amended): `getConfigTransaction` derives the program address from
(multisigAddress, index, programId) but, unlike `getMultisig` and
`getVaultTransaction`, performs no existence or ownership pre-check: it calls
the library account fetcher directly, so an existing account owned by any
program whose data decodes is returned successfully, and an absent account
surfaces the library fetch error; `getVaultTransaction` by contrast fails
with its wrong-owner error on an owner mismatch before attempting decode. -/
theorem getConfigTransaction_no_validation (μ π ν κ : Type)
    (env : SquadEnv μ π ν κ) (multisigPda : String)
    (transactionIndex now : Nat) (info : AccountInfo) (v : κ) :
    (env.store (env.txPda multisigPda transactionIndex env.programId) = some info →
      env.decodeConfigTx info.data = Except.ok v →
      (getConfigTransaction env [] multisigPda transactionIndex true now).1
        = Except.ok (CachedVal.configTxVal v))
    ∧ (env.store (env.txPda multisigPda transactionIndex env.programId) = none →
        isRateLimitMessage ("Unable to find ConfigTransaction account at "
          ++ env.txPda multisigPda transactionIndex env.programId) = false →
        (getConfigTransaction env [] multisigPda transactionIndex true now).1
          = Except.error ("Unable to find ConfigTransaction account at "
              ++ env.txPda multisigPda transactionIndex env.programId))
    ∧ (env.store (env.txPda multisigPda transactionIndex env.programId) = some info →
        info.owner ≠ env.programId →
        (getVaultTransaction env [] multisigPda transactionIndex true now).1
          = Except.error invalidTxOwnerMessage) := by
  refine ⟨?_, ?_, ?_⟩
  · intro hacc hdec
    have hop : configTxFromAccountAddress env.store env.decodeConfigTx
        (env.txPda multisigPda transactionIndex env.programId) = Except.ok v := by
      simp [configTxFromAccountAddress, hacc, hdec]
    simp [getConfigTransaction, TTLCache.cacheGet, TTLCache.cacheLookup,
      retryWithBackoff, retryLoop, MAX_RETRIES, hop]
  · intro habs hrl
    have hop : configTxFromAccountAddress env.store env.decodeConfigTx
        (env.txPda multisigPda transactionIndex env.programId)
        = Except.error ("Unable to find ConfigTransaction account at "
            ++ env.txPda multisigPda transactionIndex env.programId) := by
      simp [configTxFromAccountAddress, habs]
    simp [getConfigTransaction, TTLCache.cacheGet, TTLCache.cacheLookup,
      retryWithBackoff, retryLoop, MAX_RETRIES, hop, hrl]
  · intro hacc hdiff
    have hbne : (info.owner != env.programId) = true := by
      simp [bne_iff_ne, hdiff]
    have hop : getVaultTransactionOp env
        (env.txPda multisigPda transactionIndex env.programId)
        = Except.error invalidTxOwnerMessage := by
      simp [getVaultTransactionOp, hacc, hbne]
    have hrl : isRateLimitMessage invalidTxOwnerMessage = false := by decide
    simp [getVaultTransaction, TTLCache.cacheGet, TTLCache.cacheLookup,
      retryWithBackoff, retryLoop, MAX_RETRIES, hop, hrl]

set_option maxRecDepth 10000 in
/-- Witness for C5 (amended): at the concrete environment the wrongly owned
but decodable config-transaction account is returned successfully, while
`getVaultTransaction` rejects the same account for its owner. -/
theorem getConfigTransaction_no_validation_witness :
    (getConfigTransaction envConfigTx [] "Ms1" 1 true 0).1
        = Except.ok (CachedVal.configTxVal 42)
    ∧ (getVaultTransaction envConfigTx [] "Ms1" 1 true 0).1
        = Except.error invalidTxOwnerMessage := by
  have h := getConfigTransaction_no_validation Nat Nat Nat Nat
    envConfigTx "Ms1" 1 0 { owner := "WrongProgram9999", data := [7] } 42
  exact ⟨h.1 (by rfl) (by rfl), h.2.2 (by rfl) (by decide)⟩

set_option maxRecDepth 10000 in
/-- Counterexample to C5 as stated: the account at the derived address exists
and is owned by a program other than the configured one, yet
`getConfigTransaction` performs no ownership check and returns the decoded
value successfully instead of failing with a WrongOwner-classified error. -/
theorem getConfigTransaction_counterexample :
    (getConfigTransaction envConfigTx [] "Ms1" 1 true 0).1
        = Except.ok (CachedVal.configTxVal 42)
    ∧ envConfigTx.txPda "Ms1" 1 envConfigTx.programId = "CfgTxPda11"
    ∧ envConfigTx.store "CfgTxPda11"
        = some { owner := "WrongProgram9999", data := [7] }
    ∧ "WrongProgram9999" ≠ envConfigTx.programId := by
  refine ⟨by rfl, by rfl, by rfl, by decide⟩

end ClaimC5
